import Mathlib

/-!
Shallow embedding of `src/authorization.ts` (BCE-Auth-V1 request signing).

Strings are Lean `String`s (lists of Unicode scalar values); JavaScript string
operations used by the source (`toLowerCase`, `trim`, `encodeURIComponent`,
`Array.prototype.sort`, `startsWith`, `includes`, `join`, `flatMap`) are
embedded below.  JavaScript's default array sort compares UTF-16 code-unit
sequences; the embedding compares scalar-value sequences, which agrees on all
Basic-Multilingual-Plane inputs (in particular all ASCII inputs used here).
The HMAC-SHA256 hex digest comes from `node:crypto`, an external collaborator
outside this repository; the signer is therefore parameterised by the digest
function `hash : String → String → String` (and by a fallible
`hmac : String → String → Except String String` in the exception-aware
variant used for error-propagation facts).
-/

namespace BceSdk

/-- Embedding of JavaScript `String.prototype.toLowerCase` on a single
character, restricted to the ASCII mapping (the only case exercised by the
source, which compares against the ASCII literals `"authorization"`,
`"x-bce-"` and the default sign-list). -/
def toLowerChar (c : Char) : Char :=
  if 'A' ≤ c ∧ c ≤ 'Z' then Char.ofNat (c.toNat + 32) else c

/-- Embedding of JavaScript `String.prototype.toLowerCase`. -/
def toLower (s : String) : String :=
  String.mk (s.data.map toLowerChar)

/-- The WhiteSpace / LineTerminator set trimmed by JavaScript
`String.prototype.trim`. -/
def isJsWhitespace (c : Char) : Bool :=
  c.toNat == 9 || c.toNat == 10 || c.toNat == 11 || c.toNat == 12 ||
  c.toNat == 13 || c.toNat == 32 || c.toNat == 160 || c.toNat == 0x1680 ||
  (0x2000 ≤ c.toNat && c.toNat ≤ 0x200A) || c.toNat == 0x2028 ||
  c.toNat == 0x2029 || c.toNat == 0x202F || c.toNat == 0x205F ||
  c.toNat == 0x3000 || c.toNat == 0xFEFF

/-- Embedding of JavaScript `String.prototype.trim`. -/
def trim (s : String) : String :=
  String.mk (((s.data.dropWhile isJsWhitespace).reverse.dropWhile isJsWhitespace).reverse)

/-- Embedding of JavaScript `String.prototype.startsWith`. -/
def startsWith (s p : String) : Bool :=
  p.data.isPrefixOf s.data

/-- The source's `NORMALIZE_MAP` table: the five characters
`! ' ( ) *` mapped to their percent-encodings (`authorization.ts` lines
15–21). -/
def NORMALIZE_MAP (c : Char) : Option (List Char) :=
  if c = '!' then some ['%', '2', '1']
  else if c = Char.ofNat 39 then some ['%', '2', '7']
  else if c = '(' then some ['%', '2', '8']
  else if c = ')' then some ['%', '2', '9']
  else if c = '*' then some ['%', '2', 'A']
  else none

/-- The character set that JavaScript `encodeURIComponent` leaves
unescaped: `A–Z a–z 0–9 - _ . ! ~ * ' ( )`. -/
def isUriUnreserved (c : Char) : Bool :=
  ('A' ≤ c && c ≤ 'Z') || ('a' ≤ c && c ≤ 'z') || ('0' ≤ c && c ≤ '9') ||
  c == '-' || c == '_' || c == '.' || c == '!' || c == '~' || c == '*' ||
  c == Char.ofNat 39 || c == '(' || c == ')'

/-- Upper-case hexadecimal digit for a value below 16 (as produced by
`encodeURIComponent`). -/
def hexDigitChar (n : Nat) : Char :=
  if n < 10 then Char.ofNat (48 + n) else Char.ofNat (55 + n)

/-- One percent-escaped byte, `%XX` with upper-case hex. -/
def percentByte (n : Nat) : List Char :=
  ['%', hexDigitChar (n / 16), hexDigitChar (n % 16)]

/-- UTF-8 byte sequence of a Unicode scalar value (as used by
`encodeURIComponent` for escaped characters). -/
def utf8Bytes (n : Nat) : List Nat :=
  if n < 0x80 then [n]
  else if n < 0x800 then [0xC0 + n / 64, 0x80 + n % 64]
  else if n < 0x10000 then [0xE0 + n / 4096, 0x80 + (n / 64) % 64, 0x80 + n % 64]
  else [0xF0 + n / 262144, 0x80 + (n / 4096) % 64, 0x80 + (n / 64) % 64, 0x80 + n % 64]

/-- Embedding of JavaScript `encodeURIComponent` on a character list. -/
def encodeURIComponentList (l : List Char) : List Char :=
  l.flatMap fun c =>
    if isUriUnreserved c then [c] else (utf8Bytes c.toNat).flatMap percentByte

/-- The source's `.replace(/[!'()*]/g, v => NORMALIZE_MAP[v])` pass
(`authorization.ts` line 24): every occurrence of one of the five mapped
characters is replaced by its percent-encoding. -/
def replaceNormalizeMap (l : List Char) : List Char :=
  l.flatMap fun c =>
    match NORMALIZE_MAP c with
    | some r => r
    | none => [c]

/-- The source's `normalize` (`authorization.ts` lines 23–24):
`encodeURIComponent` followed by the `NORMALIZE_MAP` replacement pass. -/
def normalize (s : String) : String :=
  String.mk (replaceNormalizeMap (encodeURIComponentList s.data))

/-- Value of one hexadecimal digit character (upper- or lower-case), used
by the percent-decoder. -/
def hexVal (c : Char) : Option Nat :=
  if '0' ≤ c ∧ c ≤ '9' then some (c.toNat - 48)
  else if 'A' ≤ c ∧ c ≤ 'F' then some (c.toNat - 55)
  else if 'a' ≤ c ∧ c ≤ 'f' then some (c.toNat - 87)
  else none

/-- Standard percent-decoding to a byte sequence: `%XX` becomes the byte
`XX`, any other character stands for its own code (adequate for the ASCII
outputs of `normalize`); malformed escapes fail. -/
def percentDecodeBytes : List Char → Option (List Nat)
  | [] => some []
  | c :: cs =>
    if c = '%' then
      match cs with
      | c₁ :: c₂ :: cs₂ =>
        match hexVal c₁, hexVal c₂ with
        | some a, some b => (percentDecodeBytes cs₂).map fun bs => (16 * a + b) :: bs
        | _, _ => none
      | _ => none
    else (percentDecodeBytes cs).map fun bs => c.toNat :: bs

/-- Standard percent-decoding of a string whose decoded bytes are scalar
values (true of all ASCII round-trips considered here). -/
def percentDecode (s : String) : Option String :=
  (percentDecodeBytes s.data).map fun bs => String.mk (bs.map Char.ofNat)

/-- The unreserved set that `normalize` leaves unescaped:
`A–Z a–z 0–9 - _ . ~` (the `encodeURIComponent` set minus the five
`NORMALIZE_MAP` characters), phrased on character codes (65–90 is `A–Z`,
97–122 is `a–z`, 48–57 is `0–9`). -/
def unreservedFinal (c : Char) : Prop :=
  (65 ≤ c.toNat ∧ c.toNat ≤ 90) ∨ (97 ≤ c.toNat ∧ c.toNat ≤ 122) ∨
    (48 ≤ c.toNat ∧ c.toNat ≤ 57) ∨ c = '-' ∨ c = '_' ∨ c = '.' ∨ c = '~'

instance (c : Char) : Decidable (unreservedFinal c) := by
  unfold unreservedFinal
  infer_instance

/-- Action of `normalize` on a single character: `encodeURIComponent`
followed by the `NORMALIZE_MAP` replacement. -/
def normalizeChar (c : Char) : List Char :=
  replaceNormalizeMap (if isUriUnreserved c then [c] else (utf8Bytes c.toNat).flatMap percentByte)

/-- JavaScript's default `Array.prototype.sort` on an array of strings:
the sorted permutation under lexicographic string comparison. -/
def sortStrings (l : List String) : List String :=
  l.insertionSort (· ≤ ·)

/-- The `canonicalize` closure inside `canonicalizeSearchParams`
(`authorization.ts` lines 31–36): a pair whose key lower-cases to
`"authorization"` is dropped, any other pair becomes the single entry
`key ++ "=" ++ normalize value` (note: the key itself is not normalized). -/
def canonicalizeOneParam (p : String × String) : List String :=
  if toLower p.1 = "authorization" then [] else [p.1 ++ "=" ++ normalize p.2]

/-- The source's `canonicalizeSearchParams` (`authorization.ts` lines
26–38).  `none` models the `undefined` parameter list. -/
def canonicalizeSearchParams (params : Option (List (String × String))) : String :=
  match params with
  | none => ""
  | some ps => String.intercalate "&" (sortStrings (ps.flatMap canonicalizeOneParam))

/-- The source's `DEFAULT_HEADERS_TO_SIGN` (`authorization.ts` line 40). -/
def DEFAULT_HEADERS_TO_SIGN : List String :=
  ["host", "content-md5", "content-length", "content-type"]

/-- The inclusion test on line 58 of `authorization.ts`: the trimmed value
is truthy (non-empty) and the lower-cased name is either listed in
`headerNamesToSign` or starts with `x-bce-`.  (Header values are typed
`string` in the source, so the `typeof value === 'string'` guard always
selects the `value.trim()` branch in this embedding.) -/
def headerIncluded (headerNamesToSign : List String) (h : String × String) : Bool :=
  (trim h.2 != "") &&
    (headerNamesToSign.contains (toLower h.1) || startsWith (toLower h.1) "x-bce-")

/-- One step of the `Object.entries(headers).reduce` accumulator
(`authorization.ts` lines 53–66): an included header appends its
lower-cased name and its `normalize(name):normalize(value)` entry. -/
def headerStep (headerNamesToSign : List String) (result : List String × List String)
    (h : String × String) : List String × List String :=
  if headerIncluded headerNamesToSign h then
    (result.1 ++ [toLower h.1],
     result.2 ++ [normalize (toLower h.1) ++ ":" ++ normalize (trim h.2)])
  else result

/-- Result type of `canonicalizeHeaders` (`authorization.ts` lines 47–50). -/
structure CanonicalizeHeadersResult where
  signedHeaderNames : List String
  canonicalizedHeaders : String
  deriving DecidableEq

/-- The source's `canonicalizeHeaders` (`authorization.ts` lines 52–72):
fold over the header entries in iteration order, then sort the collected
entries and join them with newlines.  The caller supplies the resolved
`headerNamesToSign` list (the default-parameter substitution happens at the
call site, see `Authorization.createContext`). -/
def canonicalizeHeaders (headers : List (String × String))
    (headerNamesToSign : List String) : CanonicalizeHeadersResult :=
  let acc := headers.foldl (headerStep headerNamesToSign) ([], [])
  { signedHeaderNames := acc.1,
    canonicalizedHeaders := String.intercalate "\n" (sortStrings acc.2) }

/-- The source's `BceCredential` (`authorization.ts` lines 3–6). -/
structure BceCredential where
  ak : String
  sk : String
  deriving DecidableEq

/-- The source's `RequestInfo` (`authorization.ts` lines 8–13); `headers`
is an ordered entry list, matching `Object.entries` iteration order of a
JavaScript object with string keys, and `params : none` models `undefined`. -/
structure RequestInfo where
  params : Option (List (String × String))
  headers : List (String × String)
  method : String
  url : String
  deriving DecidableEq

/-- The source's `Options` (`authorization.ts` lines 80–84); `none` models
an omitted optional field. -/
structure Options where
  timestamp : String
  headerNamesToSign : Option (List String)
  expireInSeconds : Option Int
  deriving DecidableEq

/-- The source's `SignatureContext` (`authorization.ts` lines 86–92). -/
structure SignatureContext where
  canonicalRequest : String
  signedHeaderNames : List String
  authStringPrefix : String
  signingKey : String
  signature : String
  deriving DecidableEq

namespace Authorization

/-- JavaScript default-parameter semantics for
`canonicalizeHeaders(request.headers, options.headerNamesToSign)`: the
default list is substituted exactly when the argument is `undefined`. -/
def resolveHeaderNamesToSign (o : Option (List String)) : List String :=
  match o with
  | none => DEFAULT_HEADERS_TO_SIGN
  | some l => l

/-- JavaScript `options.expireInSeconds || 1800` (`authorization.ts` line
116): `undefined` and `0` are falsy and yield `1800`; every other number —
including negative ones — is truthy and is used as-is. -/
def resolveExpire (e : Option Int) : Int :=
  match e with
  | none => 1800
  | some v => if v = 0 then 1800 else v

/-- The source's `Authorization.createContext` (`authorization.ts` lines
103–127), parameterised by the external HMAC-SHA256 hex digest `hash`. -/
def createContext (hash : String → String → String) (credentials : BceCredential)
    (request : RequestInfo) (options : Options) : SignatureContext :=
  let r := canonicalizeHeaders request.headers (resolveHeaderNamesToSign options.headerNamesToSign)
  let canonicalRequest := String.intercalate "\n"
    [request.method, request.url, canonicalizeSearchParams request.params, r.canonicalizedHeaders]
  let authStringPrefix := "bce-auth-v1/" ++ credentials.ak ++ "/" ++ options.timestamp ++ "/" ++
    toString (resolveExpire options.expireInSeconds)
  let signingKey := hash credentials.sk authStringPrefix
  let signature := hash signingKey canonicalRequest
  { canonicalRequest := canonicalRequest,
    signedHeaderNames := r.signedHeaderNames,
    authStringPrefix := authStringPrefix,
    signingKey := signingKey,
    signature := signature }

/-- The source's `Authorization.authorize` (`authorization.ts` lines
98–101). -/
def authorize (hash : String → String → String) (credentials : BceCredential)
    (request : RequestInfo) (options : Options) : String :=
  let context := createContext hash credentials request options
  context.authStringPrefix ++ "/" ++ String.intercalate ";" context.signedHeaderNames ++
    "/" ++ context.signature

/-- Exception-aware variant of `createContext`, with JavaScript exception
propagation made explicit as `Except`: the `hash` helper
(`authorization.ts` lines 74–78) calls `crypto.createHmac`, which may
throw; neither `createContext` nor `authorize` catches, so a digest error
aborts the computation.  Modelled from the spec: the `node:crypto` HMAC
primitive itself is not part of this repository, so it appears as the
parameter `hmac`, and its failure mode ("rejecting an empty or otherwise
invalid secret key — fatal, propagated unchanged") is a hypothesis on that
parameter in the theorems below. -/
def createContextE (hmac : String → String → Except String String)
    (credentials : BceCredential) (request : RequestInfo) (options : Options) :
    Except String SignatureContext :=
  let r := canonicalizeHeaders request.headers (resolveHeaderNamesToSign options.headerNamesToSign)
  let canonicalRequest := String.intercalate "\n"
    [request.method, request.url, canonicalizeSearchParams request.params, r.canonicalizedHeaders]
  let authStringPrefix := "bce-auth-v1/" ++ credentials.ak ++ "/" ++ options.timestamp ++ "/" ++
    toString (resolveExpire options.expireInSeconds)
  match hmac credentials.sk authStringPrefix with
  | Except.error e => Except.error e
  | Except.ok signingKey =>
    match hmac signingKey canonicalRequest with
    | Except.error e => Except.error e
    | Except.ok signature =>
      Except.ok
        { canonicalRequest := canonicalRequest,
          signedHeaderNames := r.signedHeaderNames,
          authStringPrefix := authStringPrefix,
          signingKey := signingKey,
          signature := signature }

/-- Exception-aware variant of `authorize` built on `createContextE`. -/
def authorizeE (hmac : String → String → Except String String)
    (credentials : BceCredential) (request : RequestInfo) (options : Options) :
    Except String String :=
  match createContextE hmac credentials request options with
  | Except.error e => Except.error e
  | Except.ok context =>
    Except.ok (context.authStringPrefix ++ "/" ++
      String.intercalate ";" context.signedHeaderNames ++ "/" ++ context.signature)

end Authorization

/-- A concrete stand-in digest used only to instantiate the `hash`
parameter in closed evaluations. -/
def hashDemo (key data : String) : String :=
  "hmac[" ++ key ++ "|" ++ data ++ "]"

/-- A concrete stand-in fallible digest that rejects the empty key, used
only to instantiate the `hmac` parameter in closed evaluations. -/
def hmacDemo (key data : String) : Except String String :=
  if key = "" then Except.error "Zero-length key" else Except.ok (key ++ "#" ++ data)

/-! ### Helper lemmas -/

theorem sortStrings_perm (l : List String) : (sortStrings l).Perm l :=
  List.perm_insertionSort _ l

theorem sortStrings_sorted (l : List String) : List.Sorted (· ≤ ·) (sortStrings l) :=
  List.sorted_insertionSort _ l

/-- Sorting is invariant under permutation of the input list. -/
theorem sortStrings_congr {l₁ l₂ : List String} (h : l₁.Perm l₂) :
    sortStrings l₁ = sortStrings l₂ :=
  List.eq_of_perm_of_sorted
    ((sortStrings_perm l₁).trans (h.trans (sortStrings_perm l₂).symm))
    (sortStrings_sorted l₁) (sortStrings_sorted l₂)

/-- The header-entry fold accumulates exactly the included headers, in
iteration order, into both accumulator components. -/
theorem headerStep_foldl (ns : List String) (headers : List (String × String))
    (a b : List String) :
    headers.foldl (headerStep ns) (a, b) =
      (a ++ (headers.filter (headerIncluded ns)).map fun h => toLower h.1,
       b ++ (headers.filter (headerIncluded ns)).map fun h =>
         normalize (toLower h.1) ++ ":" ++ normalize (trim h.2)) := by
  induction headers generalizing a b with
  | nil => simp
  | cons h t ih =>
    by_cases hc : headerIncluded ns h
    · simp only [List.foldl_cons, headerStep, hc, if_true, List.filter_cons_of_pos hc,
        List.map_cons, ih, List.append_assoc, List.cons_append, List.nil_append]
    · simp only [List.foldl_cons, headerStep, hc, if_false, Bool.false_eq_true,
        List.filter_cons_of_neg (by simpa using hc), ih]

/-- Closed form of `canonicalizeHeaders`: filter, then map, with the
canonical block sorted. -/
theorem canonicalizeHeaders_eq (headers : List (String × String)) (ns : List String) :
    canonicalizeHeaders headers ns =
      { signedHeaderNames := (headers.filter (headerIncluded ns)).map fun h => toLower h.1,
        canonicalizedHeaders := String.intercalate "\n" (sortStrings
          ((headers.filter (headerIncluded ns)).map fun h =>
            normalize (toLower h.1) ++ ":" ++ normalize (trim h.2))) } := by
  simp only [canonicalizeHeaders, headerStep_foldl, List.nil_append]

/-- The canonical query string is invariant under permutation of the
parameter list. -/
theorem canonicalizeSearchParams_perm {ps₁ ps₂ : List (String × String)}
    (h : ps₁.Perm ps₂) :
    canonicalizeSearchParams (some ps₁) = canonicalizeSearchParams (some ps₂) := by
  show String.intercalate "&" (sortStrings (ps₁.flatMap canonicalizeOneParam))
    = String.intercalate "&" (sortStrings (ps₂.flatMap canonicalizeOneParam))
  rw [sortStrings_congr (h.flatMap_right canonicalizeOneParam)]

/-- The canonical header block is invariant under permutation of the
header entry list. -/
theorem canonicalizedHeaders_perm (ns : List String) {h₁ h₂ : List (String × String)}
    (h : h₁.Perm h₂) :
    (canonicalizeHeaders h₁ ns).canonicalizedHeaders
      = (canonicalizeHeaders h₂ ns).canonicalizedHeaders := by
  rw [canonicalizeHeaders_eq, canonicalizeHeaders_eq]
  simp only
  rw [sortStrings_congr (((h.filter (headerIncluded ns))).map _)]

/-- Characterwise action of `normalize`. -/
theorem normalize_data (s : String) :
    (normalize s).data = s.data.flatMap normalizeChar := by
  show replaceNormalizeMap (encodeURIComponentList s.data) = s.data.flatMap normalizeChar
  simp only [replaceNormalizeMap, encodeURIComponentList, List.flatMap_assoc]
  rfl

/-- On the printable-ASCII range, `normalizeChar` either passes the
character through (for the unreserved set `A–Z a–z 0–9 - _ . ~`) or
produces its upper-case `%XX` escape. -/
theorem normalizeChar_eq_of_printable :
    ∀ n < 127, 32 ≤ n →
      normalizeChar (Char.ofNat n) =
        if unreservedFinal (Char.ofNat n) then [Char.ofNat n] else percentByte n := by
  decide

theorem hexVal_hexDigitChar : ∀ m < 16, hexVal (hexDigitChar m) = some m := by
  decide

/-- Unfolding the decoder on a non-escape character. -/
theorem percentDecodeBytes_cons_of_ne (c : Char) (cs : List Char) (h : ¬ c = '%') :
    percentDecodeBytes (c :: cs) = (percentDecodeBytes cs).map fun bs => c.toNat :: bs := by
  rw [percentDecodeBytes.eq_def]
  simp [h]

/-- Unfolding the decoder on a well-formed escape sequence. -/
theorem percentDecodeBytes_escape (c₁ c₂ : Char) (cs : List Char) (a b : Nat)
    (h1 : hexVal c₁ = some a) (h2 : hexVal c₂ = some b) :
    percentDecodeBytes ('%' :: c₁ :: c₂ :: cs)
      = (percentDecodeBytes cs).map fun bs => (16 * a + b) :: bs := by
  rw [percentDecodeBytes.eq_def]
  simp [h1, h2]

/-- Decoding one normalized printable-ASCII character recovers its code. -/
theorem percentDecodeBytes_normalizeChar_append (c : Char) (hlo : 32 ≤ c.toNat)
    (hhi : c.toNat ≤ 126) (rest : List Char) :
    percentDecodeBytes (normalizeChar c ++ rest)
      = (percentDecodeBytes rest).map fun bs => c.toNat :: bs := by
  have hofnat : Char.ofNat c.toNat = c := Char.ofNat_toNat c
  have hcase := normalizeChar_eq_of_printable c.toNat (by omega) hlo
  rw [hofnat] at hcase
  by_cases hu : unreservedFinal c
  · rw [hcase, if_pos hu]
    have hne : ¬ c = '%' := by
      intro he
      rw [he] at hu
      revert hu
      decide
    simpa using percentDecodeBytes_cons_of_ne c rest hne
  · rw [hcase, if_neg hu]
    have hd : c.toNat / 16 < 16 := by omega
    have hm : c.toNat % 16 < 16 := Nat.mod_lt _ (by norm_num)
    have := percentDecodeBytes_escape (hexDigitChar (c.toNat / 16))
      (hexDigitChar (c.toNat % 16)) rest (c.toNat / 16) (c.toNat % 16)
      (hexVal_hexDigitChar _ hd) (hexVal_hexDigitChar _ hm)
    rw [Nat.div_add_mod] at this
    simpa [percentByte] using this

/-- Byte-level round trip of `normalize` over printable-ASCII input. -/
theorem percentDecodeBytes_flatMap_normalizeChar (l : List Char)
    (h : ∀ c ∈ l, 32 ≤ c.toNat ∧ c.toNat ≤ 126) :
    percentDecodeBytes (l.flatMap normalizeChar) = some (l.map Char.toNat) := by
  induction l with
  | nil => rfl
  | cons c t ih =>
    rw [List.flatMap_cons,
      percentDecodeBytes_normalizeChar_append c (h c (by simp)).1 (h c (by simp)).2,
      ih fun x hx => h x (by simp [hx])]
    rfl

/-- Any character in the final unreserved set is printable ASCII. -/
theorem unreservedFinal_bounds (c : Char) (h : unreservedFinal c) :
    32 ≤ c.toNat ∧ c.toNat ≤ 126 := by
  rcases h with h | h | h | h | h | h | h
  · omega
  · omega
  · omega
  all_goals
    rw [h]
    decide

/-! ### Claim theorems -/

/-- C1: for every request and options, the token returned by
`Authorization.authorize` has exactly the shape
`bce-auth-v1/{accessKey}/{timestamp}/{expire}/{signed header names joined
by ';'}/{signature}`: it equals the context's `authStringPrefix` followed
by `/`, the join of the signed header names with `;`, `/` and the
signature, where the prefix is `"bce-auth-v1/" ++ accessKey ++ "/" ++
timestamp ++ "/" ++ expire`. -/
theorem C1_token_shape (hash : String → String → String) (credentials : BceCredential)
    (request : RequestInfo) (options : Options) :
    Authorization.authorize hash credentials request options
      = ("bce-auth-v1/" ++ credentials.ak ++ "/" ++ options.timestamp ++ "/"
          ++ toString (Authorization.resolveExpire options.expireInSeconds))
        ++ "/" ++ String.intercalate ";"
            (Authorization.createContext hash credentials request options).signedHeaderNames
        ++ "/" ++ (Authorization.createContext hash credentials request options).signature
    ∧ (Authorization.createContext hash credentials request options).authStringPrefix
      = "bce-auth-v1/" ++ credentials.ak ++ "/" ++ options.timestamp ++ "/"
          ++ toString (Authorization.resolveExpire options.expireInSeconds) :=
  ⟨rfl, rfl⟩

/-- C2: the signature is produced by the two-stage HMAC chain: the
canonical request is the newline-join of method, url, canonical query and
canonical headers; the signing key is `hash` of the auth-string prefix
keyed by the secret key; the signature is `hash` of the canonical request
keyed by the signing key. -/
theorem C2_signature_chain (hash : String → String → String) (credentials : BceCredential)
    (request : RequestInfo) (options : Options) :
    (Authorization.createContext hash credentials request options).canonicalRequest
      = String.intercalate "\n" [request.method, request.url,
          canonicalizeSearchParams request.params,
          (canonicalizeHeaders request.headers
            (Authorization.resolveHeaderNamesToSign options.headerNamesToSign)).canonicalizedHeaders]
    ∧ (Authorization.createContext hash credentials request options).signingKey
      = hash credentials.sk
          (Authorization.createContext hash credentials request options).authStringPrefix
    ∧ (Authorization.createContext hash credentials request options).signature
      = hash (Authorization.createContext hash credentials request options).signingKey
          (Authorization.createContext hash credentials request options).canonicalRequest :=
  ⟨rfl, rfl, rfl⟩

/-- C3 (counterexample): the claim says each kept pair is emitted as
`normalize(key) ++ "=" ++ normalize(value)`, but the source emits the key
raw: on the parameter list `[("a b", "c d")]` the output keeps the space
in the key while the claimed form escapes it. -/
theorem C3_counterexample :
    canonicalizeSearchParams (some [("a b", "c d")]) = "a b=c%20d"
    ∧ normalize "a b" ++ "=" ++ normalize "c d" = "a%20b=c%20d"
    ∧ ("a b=c%20d" : String) ≠ "a%20b=c%20d" :=
  ⟨by decide, by decide, by decide⟩

/-- C3 (amended): for each kept pair the emitted entry is
`key ++ "=" ++ normalize value` (only the value is percent-encoded, the
key is emitted raw), pairs whose key lower-cases to `"authorization"` are
dropped, the emitted entries are sorted lexicographically and joined with
`&`, and an absent or empty parameter list yields the empty string. -/
theorem C3_canonical_query (ps : List (String × String)) :
    canonicalizeSearchParams none = ""
    ∧ canonicalizeSearchParams (some ([] : List (String × String))) = ""
    ∧ ∃ entries : List String,
        entries.Perm (ps.flatMap fun p =>
          if toLower p.1 = "authorization" then [] else [p.1 ++ "=" ++ normalize p.2])
        ∧ List.Sorted (· ≤ ·) entries
        ∧ canonicalizeSearchParams (some ps) = String.intercalate "&" entries :=
  ⟨rfl, rfl, sortStrings (ps.flatMap canonicalizeOneParam),
    sortStrings_perm _, sortStrings_sorted _, rfl⟩

/-- C4 (counterexample): the claim says a negative `expireInSeconds`
resolves to the default `1800`, but `options.expireInSeconds || 1800`
only replaces the falsy values `undefined` and `0`: with
`expireInSeconds = -1` the segment after the final slash of the prefix is
`-1`, not `1800`. -/
theorem C4_counterexample :
    (Authorization.createContext hashDemo ⟨"AK", "SK"⟩ ⟨none, [], "GET", "/"⟩
        ⟨"ts", none, some (-1)⟩).authStringPrefix = "bce-auth-v1/AK/ts/-1"
    ∧ (Authorization.createContext hashDemo ⟨"AK", "SK"⟩ ⟨none, [], "GET", "/"⟩
        ⟨"ts", none, some (-1)⟩).authStringPrefix
      ≠ (Authorization.createContext hashDemo ⟨"AK", "SK"⟩ ⟨none, [], "GET", "/"⟩
        ⟨"ts", none, some 1800⟩).authStringPrefix :=
  ⟨by decide, by decide⟩

/-- C4 (amended): an omitted `expireInSeconds` and an explicit `0` both
resolve to `1800` and produce a context identical to an explicit
`expireInSeconds = 1800`; any non-zero value — including negative ones —
is used as-is in the auth-string prefix. -/
theorem C4_expire_resolution (hash : String → String → String)
    (credentials : BceCredential) (request : RequestInfo) (ts : String)
    (names : Option (List String)) :
    Authorization.createContext hash credentials request ⟨ts, names, none⟩
      = Authorization.createContext hash credentials request ⟨ts, names, some 1800⟩
    ∧ Authorization.createContext hash credentials request ⟨ts, names, some 0⟩
      = Authorization.createContext hash credentials request ⟨ts, names, some 1800⟩
    ∧ ∀ v : Int, v ≠ 0 →
        (Authorization.createContext hash credentials request
            ⟨ts, names, some v⟩).authStringPrefix
          = "bce-auth-v1/" ++ credentials.ak ++ "/" ++ ts ++ "/" ++ toString v := by
  refine ⟨rfl, rfl, ?_⟩
  intro v hv
  have hres : Authorization.resolveExpire (some v) = v := by
    simp [Authorization.resolveExpire, hv]
  show "bce-auth-v1/" ++ credentials.ak ++ "/" ++ ts ++ "/"
      ++ toString (Authorization.resolveExpire (some v))
    = "bce-auth-v1/" ++ credentials.ak ++ "/" ++ ts ++ "/" ++ toString v
  rw [hres]

theorem C4_expire_resolution_witness :
    (Authorization.createContext hashDemo ⟨"AK", "SK"⟩ ⟨none, [], "GET", "/"⟩
        ⟨"ts", none, some (-5)⟩).authStringPrefix
      = "bce-auth-v1/" ++ "AK" ++ "/" ++ "ts" ++ "/" ++ toString (-5 : Int) :=
  (C4_expire_resolution hashDemo ⟨"AK", "SK"⟩ ⟨none, [], "GET", "/"⟩ "ts" none).2.2
    (-5) (by decide)

/-- C5: a query parameter whose key case-insensitively equals
`"authorization"` is dropped by `canonicalizeSearchParams`: removing such
a pair from the parameter list leaves the canonical query string (and
hence the canonical request and signature) unchanged. -/
theorem C5_authorization_param_dropped (ps₁ ps₂ : List (String × String))
    (k v : String) (hk : toLower k = "authorization") :
    canonicalizeSearchParams (some (ps₁ ++ (k, v) :: ps₂))
      = canonicalizeSearchParams (some (ps₁ ++ ps₂)) := by
  show String.intercalate "&" (sortStrings ((ps₁ ++ (k, v) :: ps₂).flatMap canonicalizeOneParam))
    = String.intercalate "&" (sortStrings ((ps₁ ++ ps₂).flatMap canonicalizeOneParam))
  rw [List.flatMap_append, List.flatMap_cons, List.flatMap_append]
  have hdrop : canonicalizeOneParam (k, v) = [] := by
    simp [canonicalizeOneParam, hk]
  rw [hdrop, List.nil_append]

theorem C5_authorization_param_dropped_witness :
    toLower "AUTHORIZATION" = "authorization"
    ∧ canonicalizeSearchParams (some [("a", "b"), ("AUTHORIZATION", "x")])
      = canonicalizeSearchParams (some [("a", "b")]) :=
  ⟨by decide,
    C5_authorization_param_dropped [("a", "b")] [] "AUTHORIZATION" "x" (by decide)⟩

/-- C6: a header is included in the signing set iff its trimmed value is
non-empty and its lower-cased name is either a member of
`headerNamesToSign` or starts with `x-bce-`; included lower-cased names
are listed in original iteration order, while the canonical header block
joins the `normalize(lower-cased name) ++ ":" ++ normalize(trimmed
value)` entries sorted lexicographically, with newlines. -/
theorem C6_header_selection (headers : List (String × String)) (ns : List String) :
    (canonicalizeHeaders headers ns).signedHeaderNames
      = (headers.filter fun h =>
          (trim h.2 != "") && (ns.contains (toLower h.1) || startsWith (toLower h.1) "x-bce-")).map
            (fun h => toLower h.1)
    ∧ ∃ entries : List String,
        entries.Perm ((headers.filter fun h =>
          (trim h.2 != "") && (ns.contains (toLower h.1) || startsWith (toLower h.1) "x-bce-")).map
            (fun h => normalize (toLower h.1) ++ ":" ++ normalize (trim h.2)))
        ∧ List.Sorted (· ≤ ·) entries
        ∧ (canonicalizeHeaders headers ns).canonicalizedHeaders
          = String.intercalate "\n" entries := by
  rw [canonicalizeHeaders_eq]
  exact ⟨rfl, sortStrings _, sortStrings_perm _, sortStrings_sorted _, rfl⟩

/-- C7: for two requests whose header entry lists and parameter lists are
permutations of each other (all other inputs equal), the signature is the
same, because both canonicalized strings are sorted before hashing. -/
theorem C7_signature_perm_invariant (hash : String → String → String)
    (credentials : BceCredential) (m u ts : String) (names : Option (List String))
    (e : Option Int) (hd₁ hd₂ ps₁ ps₂ : List (String × String))
    (hh : hd₁.Perm hd₂) (hp : ps₁.Perm ps₂) :
    (Authorization.createContext hash credentials ⟨some ps₁, hd₁, m, u⟩
        ⟨ts, names, e⟩).signature
      = (Authorization.createContext hash credentials ⟨some ps₂, hd₂, m, u⟩
        ⟨ts, names, e⟩).signature := by
  have hq := canonicalizeSearchParams_perm hp
  have hh2 := canonicalizedHeaders_perm (Authorization.resolveHeaderNamesToSign names) hh
  show hash (hash credentials.sk _)
      (String.intercalate "\n" [m, u, canonicalizeSearchParams (some ps₁),
        (canonicalizeHeaders hd₁
          (Authorization.resolveHeaderNamesToSign names)).canonicalizedHeaders])
    = hash (hash credentials.sk _)
      (String.intercalate "\n" [m, u, canonicalizeSearchParams (some ps₂),
        (canonicalizeHeaders hd₂
          (Authorization.resolveHeaderNamesToSign names)).canonicalizedHeaders])
  rw [hq, hh2]

theorem C7_signature_perm_invariant_witness :
    (Authorization.createContext hashDemo ⟨"AK", "SK"⟩
        ⟨some [("b", "2"), ("a", "1")], [("x-bce-b", "2"), ("x-bce-a", "1")], "GET", "/"⟩
        ⟨"ts", none, none⟩).signature
      = (Authorization.createContext hashDemo ⟨"AK", "SK"⟩
        ⟨some [("a", "1"), ("b", "2")], [("x-bce-a", "1"), ("x-bce-b", "2")], "GET", "/"⟩
        ⟨"ts", none, none⟩).signature :=
  C7_signature_perm_invariant hashDemo ⟨"AK", "SK"⟩ "GET" "/" "ts" none none
    [("x-bce-b", "2"), ("x-bce-a", "1")] [("x-bce-a", "1"), ("x-bce-b", "2")]
    [("b", "2"), ("a", "1")] [("a", "1"), ("b", "2")] (by decide) (by decide)

/-- C8: over printable-ASCII input, percent-decoding the output of
`normalize` recovers the original string; `normalize` maps the five
characters `! ' ( ) *` to `%21 %27 %28 %29 %2A` and space to `%20`, and
leaves the unreserved characters `A–Z a–z 0–9 - _ . ~` unescaped. -/
theorem C8_normalize_roundtrip :
    (∀ s : String, (∀ c ∈ s.data, 32 ≤ c.toNat ∧ c.toNat ≤ 126) →
        percentDecode (normalize s) = some s)
    ∧ (normalize "!" = "%21" ∧ normalize "'" = "%27" ∧ normalize "(" = "%28"
        ∧ normalize ")" = "%29" ∧ normalize "*" = "%2A" ∧ normalize " " = "%20")
    ∧ ∀ c : Char, unreservedFinal c → normalize (String.mk [c]) = String.mk [c] := by
  refine ⟨?_, by decide, ?_⟩
  · intro s hs
    show (percentDecodeBytes (normalize s).data).map
        (fun bs => String.mk (bs.map Char.ofNat)) = some s
    rw [normalize_data, percentDecodeBytes_flatMap_normalizeChar s.data hs]
    show some (String.mk ((s.data.map Char.toNat).map Char.ofNat)) = some s
    rw [List.map_map]
    have hmap : s.data.map (Char.ofNat ∘ Char.toNat) = s.data := by
      have hid : Char.ofNat ∘ Char.toNat = id := funext Char.ofNat_toNat
      rw [hid, List.map_id]
    rw [hmap]
  · intro c hc
    obtain ⟨hlo, hhi⟩ := unreservedFinal_bounds c hc
    have hcase := normalizeChar_eq_of_printable c.toNat (by omega) hlo
    rw [Char.ofNat_toNat] at hcase
    have hone : normalizeChar c = [c] := by
      rw [hcase, if_pos hc]
    apply String.ext
    rw [normalize_data]
    simp [hone]

theorem C8_normalize_roundtrip_witness :
    percentDecode (normalize "a b!") = some "a b!"
    ∧ normalize (String.mk ['a']) = String.mk ['a'] :=
  ⟨C8_normalize_roundtrip.1 "a b!" (by decide),
    C8_normalize_roundtrip.2.2 'a' (by decide)⟩

/-- C9: when the underlying HMAC primitive rejects the (empty) secret key,
the error is propagated unchanged by `authorize` and no token is produced.
Modelled from the spec: the `node:crypto` HMAC-SHA256 primitive is not
part of this repository, so its rejection of an empty key is the
hypothesis `hrej`; the absence of any catch in `authorize`/`createContext`
is from the source. -/
theorem C9_empty_key_error (hmac : String → String → Except String String)
    (credentials : BceCredential) (request : RequestInfo) (options : Options)
    (err : String) (hsk : credentials.sk = "")
    (hrej : ∀ data : String, hmac "" data = Except.error err) :
    Authorization.authorizeE hmac credentials request options = Except.error err := by
  unfold Authorization.authorizeE Authorization.createContextE
  rw [hsk]
  simp only [hrej]

theorem C9_empty_key_error_witness :
    Authorization.authorizeE hmacDemo ⟨"AK", ""⟩ ⟨none, [], "GET", "/"⟩
        ⟨"ts", none, none⟩ = Except.error "Zero-length key" :=
  C9_empty_key_error hmacDemo ⟨"AK", ""⟩ ⟨none, [], "GET", "/"⟩ ⟨"ts", none, none⟩
    "Zero-length key" rfl (fun _ => rfl)

/-- C10: the default sign-list is substituted only when
`headerNamesToSign` is absent; an explicit empty list disables the
membership rule, so a header is signed iff its lower-cased name starts
with `x-bce-` and its trimmed value is non-empty (a `Host` header is then
excluded). -/
theorem C10_empty_sign_list (hash : String → String → String)
    (credentials : BceCredential) (request : RequestInfo) (options : Options) :
    Authorization.resolveHeaderNamesToSign none = DEFAULT_HEADERS_TO_SIGN
    ∧ Authorization.resolveHeaderNamesToSign (some []) = []
    ∧ (options.headerNamesToSign = some [] →
        (Authorization.createContext hash credentials request options).signedHeaderNames
          = (request.headers.filter fun hd =>
              (trim hd.2 != "") && startsWith (toLower hd.1) "x-bce-").map
                fun hd => toLower hd.1) := by
  refine ⟨rfl, rfl, ?_⟩
  intro h
  show (canonicalizeHeaders request.headers
      (Authorization.resolveHeaderNamesToSign options.headerNamesToSign)).signedHeaderNames = _
  rw [h]
  show (canonicalizeHeaders request.headers []).signedHeaderNames = _
  rw [canonicalizeHeaders_eq]
  simp only
  refine congrArg _ (List.filter_congr ?_)
  intro hd _
  simp [headerIncluded]

theorem C10_empty_sign_list_witness :
    (Authorization.createContext hashDemo ⟨"AK", "SK"⟩
        ⟨none, [("Host", "example.com"), ("x-bce-date", "2024")], "GET", "/"⟩
        ⟨"ts", some [], none⟩).signedHeaderNames = ["x-bce-date"] :=
  ((C10_empty_sign_list hashDemo ⟨"AK", "SK"⟩
      ⟨none, [("Host", "example.com"), ("x-bce-date", "2024")], "GET", "/"⟩
      ⟨"ts", some [], none⟩).2.2 rfl).trans (by decide)

end BceSdk
